import Mathlib

/-!
# Verification of the eth-btc-swapper atomic-swap core

Shallow embedding of the swap system's core components, translated from the
repository's source:

* `FusionResolver` — the Solidity on-chain order registry (`FusionResolver.sol`):
  swap orders, status machine, anti-replay set, expiry checks.
* `BitcoinHTLC` — the Bitcoin HTLC builder (`src/bitcoin/htlc.js`):
  HTLC script construction, claim-transaction assembly, secret extraction.
* `SwapCoordinator` — the coordinator's initial persisted swap state
  (`src/coordinator/SwapCoordinator.js`).
* `StateManager` — the persistent store's cleanup operation
  (`StateManager.js`).

Cryptographic primitives (EVM `keccak256`, Node `crypto` SHA-256) and the
bitcoinjs script (de)serialisation are external library collaborators; they are
modelled as explicit function parameters (`keccak256`, `sha256`) so every
theorem quantifies over the primitive rather than stubbing it.

Solidity `require`-failures are modelled with `Except`: a failing call returns
`Except.error` and the caller keeps the pre-call state, which is exactly the
EVM revert semantics for these entry points.
-/

namespace FusionResolver

/-- EVM addresses, modelled as naturals; `0` is `address(0)`. -/
abbrev Address := Nat

/-- `bytes32` words, modelled as naturals (values are opaque identifiers). -/
abbrev Bytes32 := Nat

/-- `enum SwapStatus { Pending, Completed, Refunded, Expired }`. -/
inductive SwapStatus where
  | Pending
  | Completed
  | Refunded
  | Expired
deriving DecidableEq, Repr

/-- `struct SwapOrder` from the contract. -/
structure SwapOrder where
  user : Address
  tokenOut : Address
  amountOut : Nat
  bitcoinTxHash : Bytes32
  secretHash : Bytes32
  lockTime : Nat
  createdAt : Nat
  status : SwapStatus
deriving DecidableEq, Repr

/-- The zero-initialised order a Solidity mapping returns for an unset key. -/
def zeroOrder : SwapOrder :=
  { user := 0, tokenOut := 0, amountOut := 0, bitcoinTxHash := 0,
    secretHash := 0, lockTime := 0, createdAt := 0, status := .Pending }

/-- Contract storage: the three mappings, the owner and the oracle allowlist. -/
structure State where
  owner : Address
  swapOrders : Bytes32 → SwapOrder
  usedSecrets : Bytes32 → Bool
  processedBitcoinTxs : Bytes32 → Bool
  authorizedOracles : Address → Bool

/-- Storage right after the constructor runs with `msg.sender = deployer`. -/
def initState (deployer : Address) : State :=
  { owner := deployer,
    swapOrders := fun _ => zeroOrder,
    usedSecrets := fun _ => false,
    processedBitcoinTxs := fun _ => false,
    authorizedOracles := Function.update (fun _ => false) deployer true }

/-- One constructor per `require(...)` revert string in the contract. -/
inductive Revert where
  | swapAlreadyExists
  | invalidTokenAddress
  | invalidAmount
  | invalidLockTime
  | swapDoesNotExist
  | swapNotPending
  | swapExpired
  | invalidSecret
  | secretAlreadyUsed
  | invalidBitcoinProof
  | invalidAmountForExecution
  | swapNotExpired
  | notAuthorizedOracle
  | hashMismatch
  | insufficientConfirmations
  | notOwner
deriving DecidableEq, Repr

/-- `uint256 public constant SWAP_TIMEOUT = 24 hours;` (in seconds). -/
def SWAP_TIMEOUT : Nat := 24 * 60 * 60

/-- `uint256 public constant MIN_CONFIRMATIONS = 3;` -/
def MIN_CONFIRMATIONS : Nat := 3

/-- `initiateSwap`: registers a new order under `swapId`. -/
def initiateSwap (sender : Address) (now : Nat) (swapId : Bytes32)
    (tokenOut : Address) (amountOut : Nat) (bitcoinTxHash secretHash : Bytes32)
    (lockTime : Nat) (st : State) : Except Revert State :=
  if (st.swapOrders swapId).user ≠ 0 then .error .swapAlreadyExists
  else if tokenOut = 0 then .error .invalidTokenAddress
  else if ¬ amountOut > 0 then .error .invalidAmount
  else if ¬ lockTime > now then .error .invalidLockTime
  else
    .ok { st with swapOrders := Function.update st.swapOrders swapId ({ user := sender, tokenOut := tokenOut, amountOut := amountOut, bitcoinTxHash := bitcoinTxHash, secretHash := secretHash, lockTime := lockTime, createdAt := now, status := .Pending }) }

/-- `verifyBitcoinTransaction` — the placeholder proof check in the source:
`txProof.length > 0 && merkleProof.length > 0`. -/
def verifyBitcoinTransaction (_txHash : Bytes32) (txProof : List Nat)
    (merkleProof : List Bytes32) : Bool :=
  decide (txProof.length > 0) && decide (merkleProof.length > 0)

/-- `completeSwap`: checks existence, pending status, expiry,
`keccak256(abi.encodePacked(secret)) == order.secretHash`, the anti-replay
set, and the (placeholder) Bitcoin proof; then marks the secret used, the
Bitcoin tx processed and the order `Completed`.  The final `require` inside
`_executeFusionSwap` is the `amountOut > 0` check. -/
def completeSwap (keccak256 : Bytes32 → Bytes32) (_sender : Address)
    (now : Nat) (swapId : Bytes32) (secret : Bytes32)
    (bitcoinTxProof : List Nat) (merkleProof : List Bytes32)
    (st : State) : Except Revert State :=
  let order := st.swapOrders swapId
  if order.user = 0 then .error .swapDoesNotExist
  else if order.status ≠ .Pending then .error .swapNotPending
  else if ¬ now ≤ order.lockTime then .error .swapExpired
  else if keccak256 secret ≠ order.secretHash then .error .invalidSecret
  else if st.usedSecrets secret then .error .secretAlreadyUsed
  else if ¬ verifyBitcoinTransaction order.bitcoinTxHash bitcoinTxProof merkleProof then
    .error .invalidBitcoinProof
  else if ¬ order.amountOut > 0 then .error .invalidAmountForExecution
  else .ok { st with
    usedSecrets := Function.update st.usedSecrets secret true,
    processedBitcoinTxs := Function.update st.processedBitcoinTxs order.bitcoinTxHash true,
    swapOrders := Function.update st.swapOrders swapId ({ order with status := .Completed }) }

/-- `refundSwap`: requires existence, pending status, and
`block.timestamp > lockTime || block.timestamp > createdAt + SWAP_TIMEOUT`;
then marks the order `Refunded`. -/
def refundSwap (_sender : Address) (now : Nat) (swapId : Bytes32)
    (_reason : String) (st : State) : Except Revert State :=
  let order := st.swapOrders swapId
  if order.user = 0 then .error .swapDoesNotExist
  else if order.status ≠ .Pending then .error .swapNotPending
  else if ¬ (now > order.lockTime ∨ now > order.createdAt + SWAP_TIMEOUT) then
    .error .swapNotExpired
  else
    .ok { st with swapOrders := Function.update st.swapOrders swapId ({ order with status := .Refunded }) }

/-- `submitBitcoinProof` (oracle-gated auxiliary path). -/
def submitBitcoinProof (sender : Address) (swapId : Bytes32)
    (bitcoinTxHash : Bytes32) (confirmations : Nat) (isValid : Bool)
    (st : State) : Except Revert State :=
  if ¬ st.authorizedOracles sender then .error .notAuthorizedOracle
  else
    let order := st.swapOrders swapId
    if order.user = 0 then .error .swapDoesNotExist
    else if order.bitcoinTxHash ≠ bitcoinTxHash then .error .hashMismatch
    else if confirmations < MIN_CONFIRMATIONS then .error .insufficientConfirmations
    else if isValid then
      .ok { st with processedBitcoinTxs := Function.update st.processedBitcoinTxs bitcoinTxHash true }
    else .ok st

/-- `addAuthorizedOracle` (`onlyOwner`). -/
def addAuthorizedOracle (sender oracle : Address) (st : State) : Except Revert State :=
  if sender ≠ st.owner then .error .notOwner
  else .ok { st with authorizedOracles := Function.update st.authorizedOracles oracle true }

/-- `removeAuthorizedOracle` (`onlyOwner`). -/
def removeAuthorizedOracle (sender oracle : Address) (st : State) : Except Revert State :=
  if sender ≠ st.owner then .error .notOwner
  else .ok { st with authorizedOracles := Function.update st.authorizedOracles oracle false }

/-- `isSwapExpired`: `block.timestamp > order.lockTime ||
block.timestamp > order.createdAt + SWAP_TIMEOUT`. -/
def isSwapExpired (now : Nat) (swapId : Bytes32) (st : State) : Bool :=
  let order := st.swapOrders swapId
  decide (now > order.lockTime) || decide (now > order.createdAt + SWAP_TIMEOUT)

/-- A status is terminal when it is not `Pending`. -/
def SwapStatus.IsTerminal : SwapStatus → Prop
  | .Pending => False
  | .Completed => True
  | .Refunded => True
  | .Expired => True

instance : DecidablePred SwapStatus.IsTerminal := fun s =>
  match s with
  | .Pending => isFalse id
  | .Completed => isTrue trivial
  | .Refunded => isTrue trivial
  | .Expired => isTrue trivial

/-- One on-chain interaction with the contract: time advances (block
timestamps are non-decreasing) or one of the external entry points is
executed successfully.  `keccak256` is the ambient hash primitive. -/
inductive Step (keccak256 : Bytes32 → Bytes32) :
    Nat × State → Nat × State → Prop where
  | timeAdvance {t t' : Nat} {st : State} (h : t ≤ t') :
      Step keccak256 (t, st) (t', st)
  | initiate {t : Nat} {st st' : State}
      (sender : Address) (swapId : Bytes32) (tokenOut : Address)
      (amountOut : Nat) (bitcoinTxHash secretHash : Bytes32) (lockTime : Nat)
      (h : initiateSwap sender t swapId tokenOut amountOut bitcoinTxHash
            secretHash lockTime st = .ok st') :
      Step keccak256 (t, st) (t, st')
  | complete {t : Nat} {st st' : State}
      (sender : Address) (swapId secret : Bytes32)
      (bitcoinTxProof : List Nat) (merkleProof : List Bytes32)
      (h : completeSwap keccak256 sender t swapId secret bitcoinTxProof
            merkleProof st = .ok st') :
      Step keccak256 (t, st) (t, st')
  | refund {t : Nat} {st st' : State}
      (sender : Address) (swapId : Bytes32) (reason : String)
      (h : refundSwap sender t swapId reason st = .ok st') :
      Step keccak256 (t, st) (t, st')
  | submitProof {t : Nat} {st st' : State}
      (sender : Address) (swapId bitcoinTxHash : Bytes32)
      (confirmations : Nat) (isValid : Bool)
      (h : submitBitcoinProof sender swapId bitcoinTxHash confirmations
            isValid st = .ok st') :
      Step keccak256 (t, st) (t, st')
  | addOracle {t : Nat} {st st' : State} (sender oracle : Address)
      (h : addAuthorizedOracle sender oracle st = .ok st') :
      Step keccak256 (t, st) (t, st')
  | removeOracle {t : Nat} {st st' : State} (sender oracle : Address)
      (h : removeAuthorizedOracle sender oracle st = .ok st') :
      Step keccak256 (t, st) (t, st')

/-- Registry states reachable from a fresh deployment. -/
def Reachable (keccak256 : Bytes32 → Bytes32) (deployer : Address)
    (c : Nat × State) : Prop :=
  Relation.ReflTransGen (Step keccak256) (0, initState deployer) c

/-- Invariant: an order that has left `Pending` was registered, so its
`user` field is non-zero. -/
def RegisteredInv (st : State) : Prop :=
  ∀ id, (st.swapOrders id).status ≠ .Pending → (st.swapOrders id).user ≠ 0

/-! ### Concrete instances used by witnesses and counterexamples -/

/-- The identity function, used as a concrete instantiation of the abstract
`keccak256` parameter in closed witnesses. -/
def idKeccak : Bytes32 → Bytes32 := fun x => x

/-- The successor function, a concrete hash stand-in that disagrees with
`idKeccak` everywhere. -/
def succKeccak : Bytes32 → Bytes32 := fun x => x + 1

/-- A concrete pending order with `secretHash = 5` and `lockTime = 100`. -/
def demoOrder : SwapOrder :=
  { user := 4, tokenOut := 2, amountOut := 5, bitcoinTxHash := 7,
    secretHash := 5, lockTime := 100, createdAt := 0, status := .Pending }

/-- A registry state holding exactly `demoOrder` at swapId `1`. -/
def demoState : State :=
  { owner := 3,
    swapOrders := Function.update (fun _ => zeroOrder) 1 demoOrder,
    usedSecrets := fun _ => false,
    processedBitcoinTxs := fun _ => false,
    authorizedOracles := Function.update (fun _ => false) 3 true }

/-- Second pending order sharing `demoOrder`'s secret hash, not yet expired. -/
def replayOrder2Live : SwapOrder := { demoOrder with bitcoinTxHash := 8 }

/-- Second pending order sharing `demoOrder`'s secret hash but with
`lockTime = 10`, already expired at time 50. -/
def replayOrder2Expired : SwapOrder :=
  { demoOrder with bitcoinTxHash := 8, lockTime := 10 }

/-- `demoState` extended with `replayOrder2Live` at swapId `2`. -/
def replaySt0Live : State :=
  { demoState with swapOrders := Function.update demoState.swapOrders 2 replayOrder2Live }

/-- `demoState` extended with `replayOrder2Expired` at swapId `2`. -/
def replaySt0Expired : State :=
  { demoState with swapOrders := Function.update demoState.swapOrders 2 replayOrder2Expired }

/-- State after a successful `completeSwap` of order `1` with secret `5`. -/
def replaySt1Live : State :=
  match completeSwap idKeccak 4 50 1 5 [1] [1] replaySt0Live with
  | .ok s => s
  | .error _ => replaySt0Live

/-- State after a successful `completeSwap` of order `1` with secret `5`. -/
def replaySt1Expired : State :=
  match completeSwap idKeccak 4 50 1 5 [1] [1] replaySt0Expired with
  | .ok s => s
  | .error _ => replaySt0Expired

/-- State after registering order `1` at time 10 on a fresh deployment. -/
def demoRegistered : State :=
  match initiateSwap 4 10 1 2 5 7 9 20 (initState 3) with
  | .ok s => s
  | .error _ => initState 3

/-- State after refunding order `1` at time 21 (past its lockTime 20). -/
def demoRefunded : State :=
  match refundSwap 4 21 1 "timeout" demoRegistered with
  | .ok s => s
  | .error _ => demoRegistered

/-- State after refunding `demoState`'s order `1` at time 101. -/
def demoStateRefunded : State :=
  match refundSwap 9 101 1 "late" demoState with
  | .ok s => s
  | .error _ => demoState

end FusionResolver

namespace BitcoinHTLC

/-- A decompiled Bitcoin script element: a data push (`Buffer` in
bitcoinjs-lib terms) or a bare opcode, as `bitcoin.script.decompile`
returns them. -/
inductive ScriptElem where
  | buf (bytes : List Nat)
  | op (code : Nat)
deriving DecidableEq, Repr

def OP_FALSE : Nat := 0
def OP_TRUE : Nat := 81
def OP_IF : Nat := 99
def OP_ELSE : Nat := 103
def OP_ENDIF : Nat := 104
def OP_DROP : Nat := 117
def OP_EQUALVERIFY : Nat := 136
def OP_SHA256 : Nat := 168
def OP_CHECKSIG : Nat := 172
def OP_CHECKLOCKTIMEVERIFY : Nat := 177

/-- Little-endian base-256 digits of a natural number. -/
def natToLEBytes (n : Nat) : List Nat :=
  if h : n = 0 then []
  else n % 256 :: natToLEBytes (n / 256)
decreasing_by exact Nat.div_lt_self (Nat.pos_of_ne_zero h) (by decide)

/-- `bitcoin.script.number.encode`: minimal little-endian encoding with a
sign byte when the top bit of the last digit is set. -/
def scriptNumEncode (n : Int) : List Nat :=
  if n = 0 then []
  else
    let bytes := natToLEBytes n.natAbs
    if 128 ≤ bytes.getLastD 0 then bytes ++ [if n < 0 then 128 else 0]
    else if n < 0 then bytes.dropLast ++ [bytes.getLastD 0 + 128]
    else bytes

/-- `createHTLCScript`: the two-branch HTLC script from `htlc.js`
(claim branch: `OP_SHA256 <hash> OP_EQUALVERIFY <recipientPubKey>
OP_CHECKSIG`; refund branch: `<lockTime> OP_CHECKLOCKTIMEVERIFY OP_DROP
<refundPubKey> OP_CHECKSIG`). -/
def createHTLCScript (hash recipientPubKey refundPubKey : List Nat)
    (lockTime : Int) : List ScriptElem :=
  [.op OP_IF,
     .op OP_SHA256, .buf hash, .op OP_EQUALVERIFY,
     .buf recipientPubKey, .op OP_CHECKSIG,
   .op OP_ELSE,
     .buf (scriptNumEncode lockTime), .op OP_CHECKLOCKTIMEVERIFY, .op OP_DROP,
     .buf refundPubKey, .op OP_CHECKSIG,
   .op OP_ENDIF]

/-- Serialise a decompiled script back to bytes (`bitcoin.script.compile`):
an opcode is one byte, a push of up to 75 bytes is a length byte followed by
the data; all pushes in this code base are below that bound. -/
def compileScript (s : List ScriptElem) : List Nat :=
  (s.map fun e =>
    match e with
    | .op c => [c]
    | .buf b => b.length :: b).flatten

/-- `addressToPubKey` — the placeholder in the source returns
`Buffer.alloc(33)`, i.e. 33 zero bytes. -/
def addressToPubKey (_address : String) : List Nat := List.replicate 33 0

/-- The object returned by `createHTLCOutput`. -/
structure HTLCOutput where
  script : List ScriptElem
  address : String
  amount : Int
  lockTime : Int
  hash : List Nat
deriving DecidableEq, Repr

/-- `createHTLCOutput`: builds the HTLC script from the (placeholder)
public keys and packages it with its P2SH address and amount.  P2SH address
derivation (`bitcoin.payments.p2sh`, a hash-based library primitive) is the
`p2shAddressOf` parameter. -/
def createHTLCOutput (p2shAddressOf : List ScriptElem → String)
    (hash : List Nat) (recipientAddress refundAddress : String)
    (lockTime : Int) (amount : Int) : HTLCOutput :=
  let recipientPubKey := addressToPubKey recipientAddress
  let refundPubKey := addressToPubKey refundAddress
  let htlcScript := createHTLCScript hash recipientPubKey refundPubKey lockTime
  { script := htlcScript, address := p2shAddressOf htlcScript,
    amount := amount, lockTime := lockTime, hash := hash }

/-- An unspent output as passed to `createClaimTransaction`. -/
structure Utxo where
  txid : List Nat
  vout : Nat
  scriptPubKey : List Nat
  value : Int
deriving DecidableEq, Repr

/-- A transaction input with its decompiled unlocking script. -/
structure TxIn where
  txid : List Nat
  vout : Nat
  scriptSig : List ScriptElem
deriving DecidableEq, Repr

/-- A transaction output. -/
structure TxOut where
  address : String
  value : Int
deriving DecidableEq, Repr

/-- A Bitcoin transaction at the level of detail the claims need. -/
structure Tx where
  ins : List TxIn
  outs : List TxOut
  locktime : Int
deriving DecidableEq, Repr

/-- `const fee = 1000; // 1000 satoshis fee` in `createClaimTransaction`. -/
def claimFee : Int := 1000

/-- `createClaimTransaction`: one input per UTXO, each finalised with the
P2SH unlocking script `[<secret> OP_TRUE <serialised redeem script>]`, and a
single output paying `htlcOutput.amount - fee` to the destination.  The
source performs no check against the sum of the UTXO values. -/
def createClaimTransaction (htlcOutput : HTLCOutput) (secret : List Nat)
    (destinationAddress : String) (utxos : List Utxo) : Tx :=
  let finalScriptSig : List ScriptElem :=
    [.buf secret, .op OP_TRUE, .buf (compileScript htlcOutput.script)]
  { ins := utxos.map fun u =>
      { txid := u.txid, vout := u.vout, scriptSig := finalScriptSig },
    outs := [{ address := destinationAddress,
               value := htlcOutput.amount - claimFee }],
    locktime := 0 }

/-- The scan loop of `extractSecretFromTransaction`: for each input, look at
the first decompiled element; if it is a 32-byte push whose SHA-256 equals
the expected hash, return it, otherwise move to the next input. -/
def extractLoop (sha256 : List Nat → List Nat) (expectedHash : List Nat) :
    List TxIn → Option (List Nat)
  | [] => none
  | i :: rest =>
    match i.scriptSig with
    | .buf p :: _ =>
      if p.length = 32 ∧ sha256 p = expectedHash then some p
      else extractLoop sha256 expectedHash rest
    | _ => extractLoop sha256 expectedHash rest

/-- `extractSecretFromTransaction` from `htlc.js`; Node's
`crypto.createHash('sha256')` is the `sha256` parameter. -/
def extractSecretFromTransaction (sha256 : List Nat → List Nat) (tx : Tx)
    (expectedHash : List Nat) : Option (List Nat) :=
  extractLoop sha256 expectedHash tx.ins

/-! ### Concrete instances used by witnesses and counterexamples -/

/-- Concrete stand-in for the abstract `sha256` parameter in witnesses. -/
def idSha : List Nat → List Nat := fun l => l

/-- Concrete stand-in for the P2SH address derivation in witnesses. -/
def demoP2sh : List ScriptElem → String := fun _ => "2N-demo"

/-- A concrete 32-byte secret. -/
def demoSecret : List Nat := List.replicate 32 7

/-- A concrete HTLC lock over 100000 satoshis. -/
def demoHtlc : HTLCOutput :=
  createHTLCOutput demoP2sh (idSha demoSecret) "m-recipient" "m-refund" 500 100000

/-- A concrete UTXO worth only 500 satoshis (less than the 1000-satoshi fee). -/
def demoUtxoSmall : Utxo := { txid := [1], vout := 0, scriptPubKey := [2], value := 500 }

end BitcoinHTLC

namespace SwapCoordinator

/-- The `btcSide` sub-object of the persisted swap state.  `secret` is an
`Option` because the spec's schema treats the plaintext-secret field as
present or absent; the source's `initiateBTCToETHSwap` sets it to the hex of
the freshly generated secret (modelled as `some` of the secret bytes). -/
structure BtcSideState where
  amount : Int
  userAddress : String
  htlcAddress : String
  htlcScript : List Nat
  secret : Option (List Nat)
  secretHash : List Nat
  lockTime : Int
deriving DecidableEq, Repr

/-- The `ethSide` sub-object of the persisted swap state. -/
structure EthSideState where
  tokenAddress : String
  amount : Int
  userAddress : String
deriving DecidableEq, Repr

/-- The persisted swap-state record written by the coordinator. -/
structure SwapState where
  swapId : String
  status : String
  btcSide : BtcSideState
  ethSide : EthSideState
  createdAt : Int
  expiresAt : Int
  btcTxId : Option String
  ethTxHash : Option String
  completedAt : Option Int
  refundedAt : Option Int
deriving DecidableEq, Repr

/-- The initial swap state constructed and saved by
`initiateBTCToETHSwap` (SwapCoordinator.js, the `swapState` object):
status `"initiated"`, `btcSide.secret` set to the plaintext secret,
`expiresAt = createdAt + 24 hours` in milliseconds. -/
def mkInitialSwapState (swapId : String) (secret hash : List Nat)
    (htlcOutput : BitcoinHTLC.HTLCOutput) (btcAmount : Int)
    (userBtcAddress : String) (lockTime : Int) (ethTokenAddress : String)
    (ethAmount : Int) (userEthAddress : String) (now : Int) : SwapState :=
  let btc : BtcSideState :=
    { amount := btcAmount, userAddress := userBtcAddress,
      htlcAddress := htlcOutput.address,
      htlcScript := BitcoinHTLC.compileScript htlcOutput.script,
      secret := some secret, secretHash := hash, lockTime := lockTime }
  let eth : EthSideState :=
    { tokenAddress := ethTokenAddress, amount := ethAmount,
      userAddress := userEthAddress }
  { swapId := swapId, status := "initiated", btcSide := btc, ethSide := eth,
    createdAt := now, expiresAt := now + 24 * 60 * 60 * 1000,
    btcTxId := none, ethTxHash := none, completedAt := none, refundedAt := none }

end SwapCoordinator

namespace StateManager

open SwapCoordinator

/-- The deletion condition of `cleanupExpiredSwaps`:
`createdAt < cutoffTime && (status === 'completed' || status === 'refunded')`
with `cutoffTime = now - maxAge`. -/
def cleanupPred (now maxAge : Int) (st : SwapState) : Bool :=
  decide (st.createdAt < now - maxAge) &&
    (decide (st.status = "completed") || decide (st.status = "refunded"))

/-- The `swapsToDelete` list collected by `cleanupExpiredSwaps`. -/
def swapsToDelete (now maxAge : Int) (states : List (String × SwapState)) :
    List String :=
  (states.filter fun e => cleanupPred now maxAge e.2).map Prod.fst

/-- `cleanupExpiredSwaps`: collects the ids of old terminal records and
deletes exactly those entries from the map. -/
def cleanupExpiredSwaps (now maxAge : Int)
    (states : List (String × SwapState)) : List (String × SwapState) :=
  let toDelete := swapsToDelete now maxAge states
  states.filter fun e => decide (e.1 ∉ toDelete)

/-! ### Concrete instances used by witnesses -/

/-- A non-terminal (status `"initiated"`) stored record created at time 0. -/
def storeRecActive : SwapState :=
  SwapCoordinator.mkInitialSwapState ("a") [1] [2] BitcoinHTLC.demoHtlc 1
    "m-user-btc" 500 "0xtok" 10 "0xuser" 0

/-- A completed stored record created at time 0. -/
def storeRecDone : SwapState := { storeRecActive with swapId := "b", status := "completed" }

/-- A two-record store: one old active record, one old completed record. -/
def demoStore : List (String × SwapState) :=
  [("a", storeRecActive), ("b", storeRecDone)]

end StateManager

/-! ## Theorems -/

namespace FusionResolver

/-- A terminal status is not `Pending`. -/
theorem terminal_ne_pending {s : SwapStatus} (h : s.IsTerminal) :
    s ≠ .Pending := by
  cases s
  · exact h.elim
  all_goals intro hc; exact SwapStatus.noConfusion hc

/-- Inversion of a successful `initiateSwap`. -/
theorem initiateSwap_ok {sender : Address} {now : Nat} {swapId : Bytes32}
    {tokenOut : Address} {amountOut : Nat} {bitcoinTxHash secretHash : Bytes32}
    {lockTime : Nat} {st st' : State}
    (h : initiateSwap sender now swapId tokenOut amountOut bitcoinTxHash
          secretHash lockTime st = .ok st') :
    (st.swapOrders swapId).user = 0 ∧ tokenOut ≠ 0 ∧ amountOut > 0 ∧
    lockTime > now ∧
    st' = { st with swapOrders := Function.update st.swapOrders swapId ({ user := sender, tokenOut := tokenOut, amountOut := amountOut, bitcoinTxHash := bitcoinTxHash, secretHash := secretHash, lockTime := lockTime, createdAt := now, status := .Pending }) } := by
  unfold initiateSwap at h
  split_ifs at h with h1 h2 h3 h4
  injection h with h5
  exact ⟨not_not.mp h1, h2, h3, h4, h5.symm⟩

/-- Inversion of a successful `completeSwap`. -/
theorem completeSwap_ok {keccak256 : Bytes32 → Bytes32} {sender : Address}
    {now : Nat} {swapId secret : Bytes32} {pf : List Nat} {mp : List Bytes32}
    {st st' : State}
    (h : completeSwap keccak256 sender now swapId secret pf mp st = .ok st') :
    (st.swapOrders swapId).user ≠ 0 ∧
    (st.swapOrders swapId).status = .Pending ∧
    now ≤ (st.swapOrders swapId).lockTime ∧
    keccak256 secret = (st.swapOrders swapId).secretHash ∧
    st.usedSecrets secret = false ∧
    st' = { st with usedSecrets := Function.update st.usedSecrets secret true, processedBitcoinTxs := Function.update st.processedBitcoinTxs (st.swapOrders swapId).bitcoinTxHash true, swapOrders := Function.update st.swapOrders swapId ({ st.swapOrders swapId with status := .Completed }) } := by
  simp only [completeSwap] at h
  split_ifs at h with h1 h2 h3 h4 h5 h6 h7
  injection h with h8
  refine ⟨h1, not_not.mp h2, h3, not_not.mp h4, ?_, h8.symm⟩
  simpa using h5

/-- Inversion of a successful `refundSwap`. -/
theorem refundSwap_ok {sender : Address} {now : Nat} {swapId : Bytes32}
    {reason : String} {st st' : State}
    (h : refundSwap sender now swapId reason st = .ok st') :
    (st.swapOrders swapId).user ≠ 0 ∧
    (st.swapOrders swapId).status = .Pending ∧
    (now > (st.swapOrders swapId).lockTime ∨
      now > (st.swapOrders swapId).createdAt + SWAP_TIMEOUT) ∧
    st' = { st with swapOrders := Function.update st.swapOrders swapId ({ st.swapOrders swapId with status := .Refunded }) } := by
  simp only [refundSwap] at h
  split_ifs at h with h1 h2 h3
  injection h with h4
  exact ⟨h1, not_not.mp h2, h3, h4.symm⟩

/-- A successful `submitBitcoinProof` never touches the order map. -/
theorem submitBitcoinProof_ok_orders {sender : Address}
    {swapId bitcoinTxHash : Bytes32} {confirmations : Nat} {isValid : Bool}
    {st st' : State}
    (h : submitBitcoinProof sender swapId bitcoinTxHash confirmations isValid
          st = .ok st') :
    st'.swapOrders = st.swapOrders := by
  simp only [submitBitcoinProof] at h
  split_ifs at h <;> (injection h with h'; rw [← h'])

/-- A successful `addAuthorizedOracle` never touches the order map. -/
theorem addAuthorizedOracle_ok_orders {sender oracle : Address} {st st' : State}
    (h : addAuthorizedOracle sender oracle st = .ok st') :
    st'.swapOrders = st.swapOrders := by
  simp only [addAuthorizedOracle] at h
  split_ifs at h
  injection h with h'
  rw [← h']

/-- A successful `removeAuthorizedOracle` never touches the order map. -/
theorem removeAuthorizedOracle_ok_orders {sender oracle : Address}
    {st st' : State}
    (h : removeAuthorizedOracle sender oracle st = .ok st') :
    st'.swapOrders = st.swapOrders := by
  simp only [removeAuthorizedOracle] at h
  split_ifs at h
  injection h with h'
  rw [← h']

/-- Each step preserves `RegisteredInv`. -/
theorem step_preserves_inv {keccak256 : Bytes32 → Bytes32}
    {c c' : Nat × State} (hstep : Step keccak256 c c')
    (hinv : RegisteredInv c.2) : RegisteredInv c'.2 := by
  cases hstep with
  | timeAdvance h => exact hinv
  | initiate sender swapId tokenOut amountOut bitcoinTxHash secretHash lockTime h =>
    obtain ⟨h0, _, _, _, hst⟩ := initiateSwap_ok h
    subst hst
    intro id hid
    by_cases hI : id = swapId
    · subst hI
      simp [Function.update_same] at hid
    · simp only [Function.update_noteq hI] at hid ⊢
      exact hinv id hid
  | complete sender swapId secret pf mp h =>
    obtain ⟨hu, _, _, _, _, hst⟩ := completeSwap_ok h
    subst hst
    intro id hid
    by_cases hI : id = swapId
    · subst hI
      simpa [Function.update_same] using hu
    · simp only [Function.update_noteq hI] at hid ⊢
      exact hinv id hid
  | refund sender swapId reason h =>
    obtain ⟨hu, _, _, hst⟩ := refundSwap_ok h
    subst hst
    intro id hid
    by_cases hI : id = swapId
    · subst hI
      simpa [Function.update_same] using hu
    · simp only [Function.update_noteq hI] at hid ⊢
      exact hinv id hid
  | submitProof sender swapId bitcoinTxHash confirmations isValid h =>
    intro id
    rw [submitBitcoinProof_ok_orders h]
    exact hinv id
  | addOracle sender oracle h =>
    intro id
    rw [addAuthorizedOracle_ok_orders h]
    exact hinv id
  | removeOracle sender oracle h =>
    intro id
    rw [removeAuthorizedOracle_ok_orders h]
    exact hinv id

/-- A single step never modifies an order that has left `Pending`. -/
theorem step_preserves_terminal_order {keccak256 : Bytes32 → Bytes32}
    {c c' : Nat × State} (hstep : Step keccak256 c c')
    (hinv : RegisteredInv c.2) (id : Bytes32)
    (hterm : (c.2.swapOrders id).status ≠ .Pending) :
    c'.2.swapOrders id = c.2.swapOrders id := by
  cases hstep with
  | timeAdvance h => rfl
  | initiate sender swapId tokenOut amountOut bitcoinTxHash secretHash lockTime h =>
    obtain ⟨h0, _, _, _, hst⟩ := initiateSwap_ok h
    subst hst
    by_cases hI : id = swapId
    · subst hI
      exact absurd h0 (hinv _ hterm)
    · simp [Function.update_noteq hI]
  | complete sender swapId secret pf mp h =>
    obtain ⟨_, hp, _, _, _, hst⟩ := completeSwap_ok h
    subst hst
    by_cases hI : id = swapId
    · subst hI
      exact absurd hp hterm
    · simp [Function.update_noteq hI]
  | refund sender swapId reason h =>
    obtain ⟨_, hp, _, hst⟩ := refundSwap_ok h
    subst hst
    by_cases hI : id = swapId
    · subst hI
      exact absurd hp hterm
    · simp [Function.update_noteq hI]
  | submitProof sender swapId bitcoinTxHash confirmations isValid h =>
    exact congrFun (submitBitcoinProof_ok_orders h) id
  | addOracle sender oracle h =>
    exact congrFun (addAuthorizedOracle_ok_orders h) id
  | removeOracle sender oracle h =>
    exact congrFun (removeAuthorizedOracle_ok_orders h) id

/-- Step sequences preserve `RegisteredInv`. -/
theorem steps_preserve_inv {keccak256 : Bytes32 → Bytes32}
    {c c' : Nat × State}
    (h : Relation.ReflTransGen (Step keccak256) c c')
    (hinv : RegisteredInv c.2) : RegisteredInv c'.2 := by
  induction h with
  | refl => exact hinv
  | tail h1 h2 ih => exact step_preserves_inv h2 ih

/-- Step sequences never modify an order that has left `Pending`. -/
theorem steps_preserve_terminal_order {keccak256 : Bytes32 → Bytes32}
    {c c' : Nat × State}
    (h : Relation.ReflTransGen (Step keccak256) c c')
    (hinv : RegisteredInv c.2) (id : Bytes32)
    (hterm : (c.2.swapOrders id).status ≠ .Pending) :
    c'.2.swapOrders id = c.2.swapOrders id := by
  induction h with
  | refl => rfl
  | tail h1 h2 ih =>
    have hb := steps_preserve_inv h1 hinv
    have hstep := step_preserves_terminal_order h2 hb id (by rw [ih]; exact hterm)
    rw [hstep, ih]

/-- A fresh deployment satisfies `RegisteredInv`. -/
theorem initState_inv (deployer : Address) : RegisteredInv (initState deployer) := by
  intro id hid
  simp [initState, zeroOrder] at hid

/-- Every reachable registry state satisfies `RegisteredInv`. -/
theorem reachable_inv {keccak256 : Bytes32 → Bytes32} {deployer : Address}
    {c : Nat × State} (h : Reachable keccak256 deployer c) :
    RegisteredInv c.2 :=
  steps_preserve_inv h (initState_inv deployer)

/-- C4: terminal statuses are absorbing.  In every reachable registry state,
`completeSwap` and `refundSwap` on an order whose status is terminal fail
with `Swap not pending` (leaving the state with the caller unchanged, by the
revert semantics of `Except`), and no sequence of further interactions ever
changes that order's status. -/
theorem terminal_status_absorbing (keccak256 : Bytes32 → Bytes32)
    (deployer : Address) (t : Nat) (st : State)
    (hreach : Reachable keccak256 deployer (t, st)) (swapId : Bytes32)
    (hterm : ((st.swapOrders swapId).status).IsTerminal) :
    (∀ sender secret pf mp,
      completeSwap keccak256 sender t swapId secret pf mp st =
        .error .swapNotPending) ∧
    (∀ sender reason,
      refundSwap sender t swapId reason st = .error .swapNotPending) ∧
    (∀ c', Relation.ReflTransGen (Step keccak256) (t, st) c' →
      (c'.2.swapOrders swapId).status = (st.swapOrders swapId).status) := by
  have hinv : RegisteredInv st := reachable_inv hreach
  have hne : (st.swapOrders swapId).status ≠ .Pending := terminal_ne_pending hterm
  have huser : (st.swapOrders swapId).user ≠ 0 := hinv swapId hne
  refine ⟨?_, ?_, ?_⟩
  · intro sender secret pf mp
    simp [completeSwap, huser, hne]
  · intro sender reason
    simp [refundSwap, huser, hne]
  · intro c' hsteps
    rw [steps_preserve_terminal_order hsteps hinv swapId hne]

/-- C4 witness: a concrete reachable state (register at time 10, refund at
time 21) whose order `1` is `Refunded`; both entry points then fail
`Swap not pending`. -/
theorem terminal_status_absorbing_witness :
    SwapStatus.IsTerminal ((demoRefunded.swapOrders 1).status) ∧
    completeSwap idKeccak 9 21 1 9 [1] [2] demoRefunded =
      .error .swapNotPending ∧
    refundSwap 9 21 1 "again" demoRefunded = .error .swapNotPending := by
  have s1 : Step idKeccak (0, initState 3) (10, initState 3) :=
    .timeAdvance (by decide)
  have s2 : Step idKeccak (10, initState 3) (10, demoRegistered) :=
    .initiate 4 1 2 5 7 9 20 rfl
  have s3 : Step idKeccak (10, demoRegistered) (21, demoRegistered) :=
    .timeAdvance (by decide)
  have s4 : Step idKeccak (21, demoRegistered) (21, demoRefunded) :=
    .refund 4 1 "timeout" rfl
  have hreach : Reachable idKeccak 3 (21, demoRefunded) :=
    Relation.ReflTransGen.tail
      (Relation.ReflTransGen.tail
        (Relation.ReflTransGen.tail
          (Relation.ReflTransGen.tail Relation.ReflTransGen.refl s1) s2) s3) s4
  have h := terminal_status_absorbing idKeccak 3 21 demoRefunded hreach 1 (by decide)
  exact ⟨by decide, h.1 9 9 [1] [2], h.2.1 9 "again"⟩

/-- C1: the secret check of `completeSwap` uses `keccak256`, not SHA-256.
For an order registered with `secretHash = SHA-256(secret)` — as the
coordinator does on every swap — `completeSwap` with the correct secret
fails `Invalid secret` whenever `keccak256(secret) ≠ SHA-256(secret)`,
contradicting the claim that the check is against SHA-256. -/
theorem completeSwap_requires_keccak_not_sha256
    (keccak256 sha256 : Bytes32 → Bytes32) (sender : Address) (now : Nat)
    (swapId secret : Bytes32) (pf : List Nat) (mp : List Bytes32) (st : State)
    (huser : (st.swapOrders swapId).user ≠ 0)
    (hpending : (st.swapOrders swapId).status = .Pending)
    (htime : now ≤ (st.swapOrders swapId).lockTime)
    (hhash : (st.swapOrders swapId).secretHash = sha256 secret)
    (hdiff : keccak256 secret ≠ sha256 secret) :
    completeSwap keccak256 sender now swapId secret pf mp st =
      .error .invalidSecret := by
  have hne : keccak256 secret ≠ (st.swapOrders swapId).secretHash := by
    rw [hhash]; exact hdiff
  simp only [completeSwap]
  rw [if_neg (fun hc => huser hc), if_neg (not_not_intro hpending),
    if_neg (not_not_intro htime), if_pos hne]

/-- C1 witness: with `succKeccak` as keccak256 and `idKeccak` as SHA-256,
the pending `demoOrder` (whose `secretHash` is the SHA-256 image of the
secret `5`) rejects the correct secret with `Invalid secret`. -/
theorem completeSwap_requires_keccak_not_sha256_witness :
    ((demoState.swapOrders 1).secretHash = idKeccak 5 ∧
      succKeccak 5 ≠ idKeccak 5) ∧
    completeSwap succKeccak 4 50 1 5 [1] [1] demoState =
      .error .invalidSecret :=
  ⟨⟨by decide, by decide⟩,
    completeSwap_requires_keccak_not_sha256 succKeccak idKeccak 4 50 1 5 [1] [1]
      demoState (by decide) (by decide) (by decide) (by decide) (by decide)⟩

/-- C3 counterexample: a successful `completeSwap` of order `1` with secret
`5`, followed by `completeSwap` of order `2` — registered, `Pending`, and
sharing the same secret hash — fails `Swap expired` (order `2`'s lockTime
`10` has passed at time `50`), not `Secret already used`. -/
theorem secret_replay_expired_counterexample :
    completeSwap idKeccak 4 50 1 5 [1] [1] replaySt0Expired =
      .ok replaySt1Expired ∧
    (replaySt0Expired.swapOrders 2).status = .Pending ∧
    (replaySt0Expired.swapOrders 2).user ≠ 0 ∧
    (replaySt0Expired.swapOrders 2).secretHash =
      (replaySt0Expired.swapOrders 1).secretHash ∧
    completeSwap idKeccak 4 50 2 5 [1] [1] replaySt1Expired =
      .error .swapExpired ∧
    Revert.swapExpired ≠ Revert.secretAlreadyUsed :=
  ⟨rfl, rfl, by decide, rfl, rfl, by decide⟩

/-- C3 (amended): after `completeSwap` succeeds with secret `s`, any later
`completeSwap` on a different registered `Pending` order sharing the same
secret hash, at a time not past that order's lockTime, fails
`Secret already used`. -/
theorem completeSwap_replay_rejected
    (keccak256 : Bytes32 → Bytes32) (sender1 sender2 : Address) (t1 t2 : Nat)
    (id1 id2 secret : Bytes32) (pf1 pf2 : List Nat) (mp1 mp2 : List Bytes32)
    (st0 st1 : State) (hne : id2 ≠ id1)
    (hok : completeSwap keccak256 sender1 t1 id1 secret pf1 mp1 st0 = .ok st1)
    (huser2 : (st0.swapOrders id2).user ≠ 0)
    (hpend2 : (st0.swapOrders id2).status = .Pending)
    (hhash2 : (st0.swapOrders id2).secretHash = (st0.swapOrders id1).secretHash)
    (htime2 : t2 ≤ (st0.swapOrders id2).lockTime) :
    completeSwap keccak256 sender2 t2 id2 secret pf2 mp2 st1 =
      .error .secretAlreadyUsed := by
  obtain ⟨hu1, hp1, ht1, hk1, hus1, hst⟩ := completeSwap_ok hok
  subst hst
  simp [completeSwap, Function.update_noteq hne, Function.update_same,
    huser2, hpend2, htime2, hhash2, hk1]

/-- C3 witness: the replay scenario with order `2` still inside its
lockTime; the second `completeSwap` fails `Secret already used`. -/
theorem completeSwap_replay_rejected_witness :
    completeSwap idKeccak 4 50 1 5 [1] [1] replaySt0Live = .ok replaySt1Live ∧
    completeSwap idKeccak 4 50 2 5 [1] [1] replaySt1Live =
      .error .secretAlreadyUsed :=
  ⟨rfl,
    completeSwap_replay_rejected idKeccak 4 4 50 50 1 2 5 [1] [1] [1] [1]
      replaySt0Live replaySt1Live (by decide) rfl (by decide) (by decide)
      (by decide) (by decide)⟩

/-- C5: for a registered `Pending` order, `refundSwap` fails
`Swap not expired` while the current time is past neither the lockTime nor
`createdAt + SWAP_TIMEOUT`; once either threshold has passed, the refund
succeeds, moves the status to `Refunded`, and every further `refundSwap`
on that swapId fails `Swap not pending`. -/
theorem refundSwap_timing (sender : Address) (now : Nat) (swapId : Bytes32)
    (reason : String) (st : State)
    (huser : (st.swapOrders swapId).user ≠ 0)
    (hpending : (st.swapOrders swapId).status = .Pending) :
    (¬ (now > (st.swapOrders swapId).lockTime ∨
        now > (st.swapOrders swapId).createdAt + SWAP_TIMEOUT) →
      refundSwap sender now swapId reason st = .error .swapNotExpired) ∧
    ((now > (st.swapOrders swapId).lockTime ∨
        now > (st.swapOrders swapId).createdAt + SWAP_TIMEOUT) →
      refundSwap sender now swapId reason st = .ok { st with swapOrders := Function.update st.swapOrders swapId ({ st.swapOrders swapId with status := .Refunded }) } ∧
      ((({ st with swapOrders := Function.update st.swapOrders swapId ({ st.swapOrders swapId with status := .Refunded }) } : State).swapOrders swapId).status = .Refunded) ∧
      (∀ sender' now' reason',
        refundSwap sender' now' swapId reason'
          { st with swapOrders := Function.update st.swapOrders swapId ({ st.swapOrders swapId with status := .Refunded }) } =
          .error .swapNotPending)) := by
  constructor
  · intro hnot
    simp only [refundSwap]
    rw [if_neg (fun hc => huser hc), if_neg (not_not_intro hpending),
      if_pos hnot]
  · intro hor
    refine ⟨?_, ?_, ?_⟩
    · simp only [refundSwap]
      rw [if_neg (fun hc => huser hc), if_neg (not_not_intro hpending),
        if_neg (not_not_intro hor)]
    · simp [Function.update_same]
    · intro sender' now' reason'
      simp [refundSwap, Function.update_same, huser]

/-- C5 witness: `demoOrder` (lockTime 100, created at 0) cannot be refunded
at time 50, is refunded exactly once at time 101, and a second refund fails
`Swap not pending`. -/
theorem refundSwap_timing_witness :
    refundSwap 9 50 1 "early" demoState = .error .swapNotExpired ∧
    refundSwap 9 101 1 "late" demoState = .ok demoStateRefunded ∧
    (demoStateRefunded.swapOrders 1).status = .Refunded ∧
    refundSwap 9 102 1 "again" demoStateRefunded = .error .swapNotPending := by
  have hearly := refundSwap_timing 9 50 1 "early" demoState (by decide) (by decide)
  have hlate := refundSwap_timing 9 101 1 "late" demoState (by decide) (by decide)
  obtain ⟨hok, hstat, hall⟩ := hlate.2 (by decide)
  exact ⟨hearly.1 (by decide), hok, hstat, hall 9 102 "again"⟩

/-- C6: once `initiateSwap` has registered an order under a swapId (from a
non-zero sender, as the EVM guarantees), any second `initiateSwap` with the
same swapId fails `Swap already exists` regardless of its other parameters,
and the registry retains the first order's parameters unchanged. -/
theorem initiateSwap_duplicate (sender1 : Address) (now1 : Nat)
    (swapId : Bytes32) (tok1 : Address) (amt1 : Nat) (btc1 hash1 : Bytes32)
    (lt1 : Nat) (st0 st1 : State) (hsender : sender1 ≠ 0)
    (hreg : initiateSwap sender1 now1 swapId tok1 amt1 btc1 hash1 lt1 st0 =
      .ok st1) :
    (∀ sender2 now2 tok2 amt2 btc2 hash2 lt2,
      initiateSwap sender2 now2 swapId tok2 amt2 btc2 hash2 lt2 st1 =
        .error .swapAlreadyExists) ∧
    st1.swapOrders swapId = { user := sender1, tokenOut := tok1, amountOut := amt1, bitcoinTxHash := btc1, secretHash := hash1, lockTime := lt1, createdAt := now1, status := .Pending } := by
  obtain ⟨h0, htok, hamt, hlt, hst⟩ := initiateSwap_ok hreg
  subst hst
  constructor
  · intro sender2 now2 tok2 amt2 btc2 hash2 lt2
    simp [initiateSwap, Function.update_same, hsender]
  · simp [Function.update_same]

/-- C6 witness: registering swapId `1` and registering it again with
entirely different parameters; the second call fails `Swap already exists`
and the stored order still carries the first call's parameters. -/
theorem initiateSwap_duplicate_witness :
    initiateSwap 4 10 1 2 5 7 9 20 (initState 3) = .ok demoRegistered ∧
    initiateSwap 6 11 1 8 9 10 11 30 demoRegistered =
      .error .swapAlreadyExists ∧
    demoRegistered.swapOrders 1 = { user := 4, tokenOut := 2, amountOut := 5, bitcoinTxHash := 7, secretHash := 9, lockTime := 20, createdAt := 10, status := .Pending } := by
  have h := initiateSwap_duplicate 4 10 1 2 5 7 9 20 (initState 3)
    demoRegistered (by decide) rfl
  exact ⟨rfl, h.1 6 11 8 9 10 11 30, h.2⟩

/-- C10: for a swapId that was never registered the stored order is the
zero order, so `isSwapExpired` returns `true` at every positive time
rather than failing or returning `false`. -/
theorem isSwapExpired_unregistered (now : Nat) (swapId : Bytes32) (st : State)
    (hzero : st.swapOrders swapId = zeroOrder) (hpos : 0 < now) :
    isSwapExpired now swapId st = true := by
  simp [isSwapExpired, hzero, zeroOrder]
  exact Or.inl hpos

/-- C10 witness: on a fresh deployment, swapId `0` was never registered and
`isSwapExpired` already returns `true` at time 1. -/
theorem isSwapExpired_unregistered_witness :
    0 < 1 ∧ isSwapExpired 1 0 (initState 3) = true :=
  ⟨Nat.one_pos, isSwapExpired_unregistered 1 0 (initState 3) rfl Nat.one_pos⟩

end FusionResolver


namespace BitcoinHTLC

/-- C7: round-trip of the secret through a claim spend.  For every 32-byte
secret `s`, `extractSecretFromTransaction` applied to a claim transaction
built from `s` (spending the claim branch of an HTLC whose hash is
`SHA-256(s)`), with `expectedHash = SHA-256(s)`, returns exactly `s`.
Hash determinism is inherent: `sha256` is a function, so `sha256 s` is one
fixed value throughout. -/
theorem extract_roundtrip (sha256 : List Nat → List Nat) (secret : List Nat)
    (hlen : secret.length = 32) (p2shAddressOf : List ScriptElem → String)
    (recipientAddress refundAddress destination : String)
    (lockTime amount : Int) (utxos : List Utxo) (hu : utxos ≠ []) :
    extractSecretFromTransaction sha256
      (createClaimTransaction
        (createHTLCOutput p2shAddressOf (sha256 secret) recipientAddress
          refundAddress lockTime amount)
        secret destination utxos)
      (sha256 secret) = some secret := by
  obtain ⟨u, rest, rfl⟩ := List.exists_cons_of_ne_nil hu
  simp [extractSecretFromTransaction, createClaimTransaction, extractLoop, hlen]

/-- C7 witness: the concrete claim transaction over `demoSecret` with one
input yields back exactly `demoSecret`. -/
theorem extract_roundtrip_witness :
    demoSecret.length = 32 ∧ ([demoUtxoSmall] : List Utxo) ≠ [] ∧
    extractSecretFromTransaction idSha
      (createClaimTransaction demoHtlc demoSecret ("m-dest") [demoUtxoSmall])
      (idSha demoSecret) = some demoSecret :=
  ⟨by decide, by decide,
    extract_roundtrip idSha demoSecret (by decide) demoP2sh ("m-recipient")
      "m-refund" "m-dest" 500 100000 [demoUtxoSmall] (by decide)⟩

/-- C8 counterexample: with a single 500-satoshi input, the sum of input
values minus the 1000-satoshi fee is negative, yet `createClaimTransaction`
does not fail — it produces a transaction whose output spends
`htlcOutput.amount - fee = 99000` satoshis.  No input-sum check (and no
`InsufficientFunds` failure) exists in the source. -/
theorem claim_insufficient_funds_counterexample :
    (([demoUtxoSmall] : List Utxo).map Utxo.value).sum - claimFee ≤ 0 ∧
    (createClaimTransaction demoHtlc demoSecret ("m-dest") [demoUtxoSmall]).outs =
      [{ address := "m-dest", value := 99000 }] :=
  ⟨by decide, by decide⟩

/-- C8 (amended): `createClaimTransaction` performs no check on the sum of
input values: even when `sum(inputs) - fee ≤ 0` it still produces a
transaction, whose single output deducts the fixed 1000-satoshi fee from
the lock's recorded `amount` (not from the input sum) before computing the
output value. -/
theorem claim_no_insufficient_funds_check (htlcOutput : HTLCOutput)
    (secret : List Nat) (destination : String) (utxos : List Utxo)
    (_hsum : (utxos.map Utxo.value).sum - claimFee ≤ 0) :
    (createClaimTransaction htlcOutput secret destination utxos).outs =
      [{ address := destination, value := htlcOutput.amount - claimFee }] :=
  rfl

/-- C8 witness: the amended statement at the concrete 500-satoshi input. -/
theorem claim_no_insufficient_funds_check_witness :
    (([demoUtxoSmall] : List Utxo).map Utxo.value).sum - claimFee ≤ 0 ∧
    (createClaimTransaction demoHtlc demoSecret ("m-dest") [demoUtxoSmall]).outs =
      [{ address := "m-dest", value := demoHtlc.amount - claimFee }] :=
  ⟨by decide,
    claim_no_insufficient_funds_check demoHtlc demoSecret ("m-dest")
      [demoUtxoSmall] (by decide)⟩

end BitcoinHTLC

namespace SwapCoordinator

/-- C2: the initial swap state persisted by `initiateBTCToETHSwap` — before
any on-chain reveal, status still `"initiated"` — already carries the
plaintext secret (`btcSide.secret` is the secret itself, not just its
hash), for every choice of parameters. -/
theorem initial_state_contains_plaintext_secret (swapId : String)
    (secret hash : List Nat) (htlcOutput : BitcoinHTLC.HTLCOutput)
    (btcAmount : Int) (userBtcAddress : String) (lockTime : Int)
    (ethTokenAddress : String) (ethAmount : Int) (userEthAddress : String)
    (now : Int) :
    (mkInitialSwapState swapId secret hash htlcOutput btcAmount
      userBtcAddress lockTime ethTokenAddress ethAmount userEthAddress
      now).status = "initiated" ∧
    (mkInitialSwapState swapId secret hash htlcOutput btcAmount
      userBtcAddress lockTime ethTokenAddress ethAmount userEthAddress
      now).btcSide.secret = some secret :=
  ⟨rfl, rfl⟩

end SwapCoordinator

namespace StateManager

open SwapCoordinator

/-- In an association list with nodup keys, a key determines its value. -/
theorem key_unique {α β : Type} [DecidableEq α] :
    ∀ (l : List (α × β)) (a : α) (b1 b2 : β),
      (l.map Prod.fst).Nodup → (a, b1) ∈ l → (a, b2) ∈ l → b1 = b2 := by
  intro l
  induction l with
  | nil =>
    intro a b1 b2 _ h1 _
    exact absurd h1 (List.not_mem_nil _)
  | cons hd tl ih =>
    intro a b1 b2 hnodup h1 h2
    rw [List.map_cons, List.nodup_cons] at hnodup
    rcases List.mem_cons.mp h1 with h1h | h1t
    · rcases List.mem_cons.mp h2 with h2h | h2t
      · exact congrArg Prod.snd (h1h.trans h2h.symm)
      · exfalso
        apply hnodup.1
        have ha : hd.1 = a := by rw [← h1h]
        rw [ha]
        exact List.mem_map_of_mem Prod.fst h2t
    · rcases List.mem_cons.mp h2 with h2h | h2t
      · exfalso
        apply hnodup.1
        have ha : hd.1 = a := by rw [← h2h]
        rw [ha]
        exact List.mem_map_of_mem Prod.fst h1t
      · exact ih a b1 b2 hnodup.2 h1t h2t

/-- C9: `cleanupExpiredSwaps` never removes a record whose status is
non-terminal (neither `"completed"` nor `"refunded"` nor `"expired"`),
regardless of the age threshold: the record is still present, unchanged,
after the purge. -/
theorem cleanup_preserves_nonterminal (now maxAge : Int)
    (states : List (String × SwapState)) (id : String) (st : SwapState)
    (hnodup : (states.map Prod.fst).Nodup) (hmem : (id, st) ∈ states)
    (hc : st.status ≠ "completed") (hr : st.status ≠ "refunded")
    (he : st.status ≠ "expired") :
    (id, st) ∈ cleanupExpiredSwaps now maxAge states := by
  simp only [cleanupExpiredSwaps]
  refine List.mem_filter.mpr ⟨hmem, ?_⟩
  simp only [decide_eq_true_eq]
  intro hdel
  simp only [swapsToDelete] at hdel
  obtain ⟨e, hmem1, heq⟩ := List.mem_map.mp hdel
  obtain ⟨hmem2, hpred⟩ := List.mem_filter.mp hmem1
  obtain ⟨eid, est⟩ := e
  simp only at heq
  subst heq
  have hst : est = st := key_unique states eid est st hnodup hmem2 hmem
  subst hst
  simp only [cleanupPred, Bool.and_eq_true, Bool.or_eq_true,
    decide_eq_true_eq] at hpred
  rcases hpred.2 with hdone | hdone
  · exact hc hdone
  · exact hr hdone

/-- C9 witness: a store with an old active record and an old completed
record; with an aggressive age threshold the purge keeps the active record
(and, at this input, deletes the completed one). -/
theorem cleanup_preserves_nonterminal_witness :
    storeRecActive.status ≠ "completed" ∧
    ("a", storeRecActive) ∈ demoStore ∧
    ("a", storeRecActive) ∈ cleanupExpiredSwaps 1000000000 1 demoStore :=
  ⟨by decide, List.mem_cons_self _ _,
    cleanup_preserves_nonterminal 1000000000 1 demoStore ("a") storeRecActive
      (by decide) (List.mem_cons_self _ _) (by decide) (by decide) (by decide)⟩

end StateManager
